import Mathlib

/-!
Verification of the boolean query parser (`src/boolean_query_parser/parser.py`).

The development shallowly embeds the lexer, the recursive-descent parser, the
AST node model with its two evaluation paths (`evaluate` and `_compile`), and
the `parse_query` / `apply_query` facade.  Strings are modelled as `List Char`
(Python is scanned ASCII-wise by the code under test), machine-level positions
as `Nat` inside the lexer and as `Int` in tokens (Python token offsets are
computed by subtraction and can be negative).  The lexer's `while` loop and the
parser's mutual recursion are modelled with explicit fuel; `none` means the
loop did not finish within the given fuel, so a result that is `none` for
every fuel models non-termination.
-/

namespace BooleanQueryParser

/-- Token kinds, mirroring the Python `TokenType` enum. -/
inductive TokenType where
  | AND
  | OR
  | NOT
  | LPAREN
  | RPAREN
  | TEXT
  | REGEX
  | EOF
  deriving DecidableEq, Repr

/-- A lexer token, mirroring the Python `Token` class.  `position` is an `Int`
because the Python code reconstructs it by subtraction, which can go negative
(e.g. for a flagged regex literal at the start of the query). -/
structure Token where
  type : TokenType
  value : List Char
  position : Int
  deriving DecidableEq, Repr

/-- A character the lexer treats as part of an unquoted word: Python
`c.isalnum() or c == '_'` (ASCII model of `str.isalnum`). -/
def isWordChar (c : Char) : Bool := c.isAlphanum || c = '_'

/-- Body scan of `Lexer._extract_regex`: starting just after the opening
slash, collect characters until an unescaped `/`; a backslash followed by any
character is copied as a two-character literal.  Returns the collected
content, the number of characters consumed, and whether a closing `/` was
found (the closing slash itself is not counted as consumed). -/
def scanRegexBody : List Char → List Char × Nat × Bool
  | [] => ([], 0, false)
  | '\\' :: c :: rest =>
      match scanRegexBody rest with
      | (cs, n, closed) => ('\\' :: c :: cs, n + 2, closed)
  | c :: rest =>
      if c = '/' then ([], 0, true)
      else
        match scanRegexBody rest with
        | (cs, n, closed) => (c :: cs, n + 1, closed)

/-- `Lexer._extract_regex`: given the query and the position of the opening
slash, return the literal stored in the token (`pattern` or `pattern/flags`,
empty when no token results) and the new lexer position.  An unterminated
regex reverts the position to the opening slash, exactly as the Python code
does. -/
def extractRegex (q : List Char) (pos : Nat) : List Char × Nat :=
  if q.length ≤ pos + 1 then ([], pos)
  else
    match scanRegexBody (q.drop (pos + 1)) with
    | (content, consumed, true) =>
        let afterSlash := pos + 1 + consumed + 1
        let flags := (q.drop afterSlash).takeWhile Char.isAlpha
        let newPos := afterSlash + flags.length
        if flags = [] then (content, newPos)
        else (content ++ '/' :: flags, newPos)
    | (_, _, false) => ([], pos)

/-- Quoted-string body scan of `Lexer._extract_text`: collect characters until
the matching quote; a backslash followed by any character contributes only
that next character (the backslash is dropped).  Returns content, characters
consumed, and whether the closing quote was found. -/
def scanQuotedBody (quote : Char) : List Char → List Char × Nat × Bool
  | [] => ([], 0, false)
  | c :: rest =>
      if c = quote then ([], 0, true)
      else if c = '\\' then
        match rest with
        | [] => ([c], 1, false)
        | d :: rest2 =>
            match scanQuotedBody quote rest2 with
            | (cs, n, closed) => (d :: cs, n + 2, closed)
      else
        match scanQuotedBody quote rest with
        | (cs, n, closed) => (c :: cs, n + 1, closed)

/-- `Lexer._extract_text`: extract a quoted string (quotes stripped, escapes
resolved) or a maximal unquoted word, returning the text and the new lexer
position. -/
def extractText (q : List Char) (pos : Nat) : List Char × Nat :=
  match q.drop pos with
  | [] => ([], pos)
  | c :: rest =>
      if c = '"' ∨ c = '\'' then
        match scanQuotedBody c rest with
        | (content, consumed, closed) =>
            let p := pos + 1 + consumed
            (content, if closed then p + 1 else p)
      else
        let word := (c :: rest).takeWhile isWordChar
        (word, pos + word.length)

/-- Result of one iteration of the `while` loop in `Lexer.tokenize`. -/
inductive LexResult where
  | emit (t : Token) (newPos : Nat)
  | skip (newPos : Nat)
  | fail (msg : String)
  deriving DecidableEq, Repr

/-- One iteration of the `while` loop in `Lexer.tokenize`.  `none` when
`pos` is past the end of the query (the loop exits and the caller appends the
EOF token).  Note that the keyword comparison happens after `_extract_text`
regardless of whether the text was quoted, exactly as in the source. -/
def lexStep (q : List Char) (pos : Nat) : Option LexResult :=
  match q.drop pos with
  | [] => none
  | c :: _ =>
      if c = ' ' ∨ c = '\t' ∨ c = '\n' ∨ c = '\r' then some (.skip (pos + 1))
      else if c = '(' then some (.emit ⟨.LPAREN, ['('], (pos : Int)⟩ (pos + 1))
      else if c = ')' then some (.emit ⟨.RPAREN, [')'], (pos : Int)⟩ (pos + 1))
      else if c = '/' then
        if (extractRegex q pos).1 = [] then some (.skip (extractRegex q pos).2)
        else
          some (.emit ⟨.REGEX, (extractRegex q pos).1,
            ((extractRegex q pos).2 : Int) - (extractRegex q pos).1.length - 2⟩
            (extractRegex q pos).2)
      else if isWordChar c ∨ c = '"' ∨ c = '\'' then
        if (extractText q pos).1.map Char.toUpper = ['A', 'N', 'D'] then
          some (.emit ⟨.AND, ['A', 'N', 'D'], ((extractText q pos).2 : Int) - 3⟩
            (extractText q pos).2)
        else if (extractText q pos).1.map Char.toUpper = ['O', 'R'] then
          some (.emit ⟨.OR, ['O', 'R'], ((extractText q pos).2 : Int) - 2⟩
            (extractText q pos).2)
        else if (extractText q pos).1.map Char.toUpper = ['N', 'O', 'T'] then
          some (.emit ⟨.NOT, ['N', 'O', 'T'], ((extractText q pos).2 : Int) - 3⟩
            (extractText q pos).2)
        else
          some (.emit ⟨.TEXT, (extractText q pos).1,
            ((extractText q pos).2 : Int) - (extractText q pos).1.length⟩
            (extractText q pos).2)
      else
        some (.fail ("Unrecognized character " ++ String.mk [c] ++ " at position " ++ toString pos))

/-- The `while` loop of `Lexer.tokenize`, driven by fuel.  `none` means the
loop performed `fuel` iterations without finishing; since every terminating
run needs only finitely many iterations, `(∀ fuel, ... = none)` states that
the Python loop runs forever. -/
def tokenizeLoop : Nat → List Char → Nat → List Token → Option (Except String (List Token))
  | 0, _, _, _ => none
  | fuel + 1, q, pos, acc =>
      match lexStep q pos with
      | none => some (.ok (acc ++ [⟨.EOF, [], (pos : Int)⟩]))
      | some (.skip p) => tokenizeLoop fuel q p acc
      | some (.emit t p) => tokenizeLoop fuel q p (acc ++ [t])
      | some (.fail msg) => some (.error msg)

/-- `Lexer.tokenize` on a fresh lexer. -/
def tokenize (fuel : Nat) (q : List Char) : Option (Except String (List Token)) :=
  tokenizeLoop fuel q 0 []

/-- Python substring containment (`needle in hay`), the semantics of
`TextNode.evaluate`. -/
def isSubstring (needle : List Char) : List Char → Bool
  | [] => needle.isPrefixOf []
  | c :: t => needle.isPrefixOf (c :: t) || isSubstring needle t

/-- The regex flags a `RegexNode` can carry (`re.IGNORECASE`, `re.MULTILINE`,
`re.DOTALL`, `re.VERBOSE`). -/
structure RegexFlags where
  i : Bool
  m : Bool
  s : Bool
  x : Bool
  deriving DecidableEq, Repr

/-- The five AST node variants of the source (`TextNode`, `RegexNode`,
`NotNode`, `AndNode`, `OrNode`).  A `RegexNode` carries the pattern and flags
resulting from the constructor's split of the token literal. -/
inductive Node where
  | TextNode (value : List Char)
  | RegexNode (pattern : List Char) (flags : RegexFlags)
  | NotNode (child : Node)
  | AndNode (left : Node) (right : Node)
  | OrNode (left : Node) (right : Node)
  deriving DecidableEq, Repr

/-- ASCII lowercasing, modelling Python case folding under `re.IGNORECASE`. -/
def lowerAll (l : List Char) : List Char := l.map Char.toLower

/-- Model of the external regex engine's unanchored `re.search`, restricted to
the literal (metacharacter-free) patterns this development exercises: an
unanchored search for a literal pattern succeeds exactly when the pattern is a
substring of the text, case-folded under the `i` flag.  The `m`, `s` and `x`
flags only affect anchors, `.` and pattern whitespace, none of which occur in
a literal pattern, so they do not change the result.  The engine is an
external collaborator (`re`), not code of this repository; everything the
repository itself does to the pattern is modelled exactly. -/
def reSearch (pattern : List Char) (flags : RegexFlags) (text : List Char) : Bool :=
  if flags.i then isSubstring (lowerAll pattern) (lowerAll text)
  else isSubstring pattern text

/-- Python `str.rfind('/')`: index of the last slash, `-1` when absent. -/
def rfindSlashAux : List Char → Nat → Int → Int
  | [], _, acc => acc
  | c :: rest, idx, acc => rfindSlashAux rest (idx + 1) (if c = '/' then (idx : Int) else acc)

/-- Index of the last `/` in the literal, `-1` when there is none. -/
def rfindSlash (l : List Char) : Int := rfindSlashAux l 0 (-1)

/-- Membership in `RegexNode.VALID_FLAGS` (`frozenset('imsx')`). -/
def validFlagChar (c : Char) : Bool := c = 'i' || c = 'm' || c = 's' || c = 'x'

/-- The pattern/flags split performed by `RegexNode.__init__`: split at the
last `/` only when that slash sits at a positive index and the suffix after it
is non-empty and consists solely of valid flag characters; otherwise the whole
literal is the pattern and there are no flags. -/
def splitRegexLiteral (lit : List Char) : List Char × List Char :=
  let ls := rfindSlash lit
  if 0 < ls then
    let idx := ls.toNat
    let possible := lit.drop (idx + 1)
    if possible ≠ [] ∧ possible.all validFlagChar then (lit.take idx, possible)
    else (lit, [])
  else (lit, [])

/-- Modelled from the spec: the split rule exactly as §4.3 words it — "scan
the literal's raw value from the last `/` character (if any) forward; if that
suffix is non-empty and every character belongs to the accepted flag set
{i, m, s, x}, treat the characters before that slash as the pattern and the
suffix as flags; otherwise the entire literal is the pattern with no flags".
Unlike `splitRegexLiteral` (the code), it does not require the last slash to
be at a positive index. -/
def specSplitRegexLiteral (lit : List Char) : List Char × List Char :=
  let ls := rfindSlash lit
  if 0 ≤ ls then
    let idx := ls.toNat
    let possible := lit.drop (idx + 1)
    if possible ≠ [] ∧ possible.all validFlagChar then (lit.take idx, possible)
    else (lit, [])
  else (lit, [])

/-- Flag characters to engine options, as in `RegexNode.__init__`. -/
def flagsOf (fs : List Char) : RegexFlags :=
  ⟨fs.contains 'i', fs.contains 'm', fs.contains 's', fs.contains 'x'⟩

/-- `RegexNode.__init__` on a token literal.  Pattern compilation is modelled
as always succeeding (the literal-pattern engine model has no invalid
patterns). -/
def mkRegexNode (lit : List Char) : Node :=
  let r := splitRegexLiteral lit
  .RegexNode r.1 (flagsOf r.2)

/-- Direct tree-walk evaluation: the `evaluate` methods of the five node
classes. -/
def Node.evaluate : Node → List Char → Bool
  | .TextNode v, t => isSubstring v t
  | .RegexNode p f, t => reSearch p f t
  | .NotNode c, t => !(c.evaluate t)
  | .AndNode l r, t => l.evaluate t && r.evaluate t
  | .OrNode l r, t => l.evaluate t || r.evaluate t

/-- The `_compile` methods: each node closes over its children's already
compiled predicates. -/
def Node.compile : Node → (List Char → Bool)
  | .TextNode v => fun t => isSubstring v t
  | .RegexNode p f => fun t => reSearch p f t
  | .NotNode c =>
      let ce := c.compile
      fun t => !(ce t)
  | .AndNode l r =>
      let le := l.compile
      let re := r.compile
      fun t => le t && re t
  | .OrNode l r =>
      let le := l.compile
      let re := r.compile
      fun t => le t || re t

/-- Parser state: the token list and the mutable cursor `self.current`. -/
structure PState where
  tokens : List Token
  current : Nat
  deriving DecidableEq, Repr

/-- The token under the cursor, `none` when `current` is past the end
(`self.current < self._num_tokens` checks in the source). -/
def peek (st : PState) : Option Token := st.tokens.get? st.current

/-- Consume one token. -/
def advance (st : PState) : PState := { st with current := st.current + 1 }

/-- `Parser._IMPLICIT_AND_STARTERS`: the token types that can begin an
implicit-AND operand. -/
def implicitStarters : List TokenType := [.TEXT, .REGEX, .LPAREN, .NOT]

mutual

/-- `Parser._parse_or_expr`: an AND expression followed by the OR loop. -/
def parseOrExpr : Nat → PState → Except String (Node × PState)
  | 0, _ => .error "out of fuel"
  | fuel + 1, st =>
      match parseAndExpr fuel st with
      | .error e => .error e
      | .ok (left, st1) => parseOrLoop fuel left st1

/-- The `while` loop of `Parser._parse_or_expr`. -/
def parseOrLoop : Nat → Node → PState → Except String (Node × PState)
  | 0, _, _ => .error "out of fuel"
  | fuel + 1, left, st =>
      match peek st with
      | some t =>
          if t.type = .OR then
            match parseAndExpr fuel (advance st) with
            | .error e => .error e
            | .ok (right, st1) => parseOrLoop fuel (.OrNode left right) st1
          else .ok (left, st)
      | none => .ok (left, st)

/-- `Parser._parse_and_expr`: a NOT expression followed by the AND loop. -/
def parseAndExpr : Nat → PState → Except String (Node × PState)
  | 0, _ => .error "out of fuel"
  | fuel + 1, st =>
      match parseNotExpr fuel st with
      | .error e => .error e
      | .ok (left, st1) => parseAndLoop fuel left st1

/-- The `while` loop of `Parser._parse_and_expr`: explicit AND consumes the
operator; a token in `implicitStarters` triggers an implicit AND without
consuming anything. -/
def parseAndLoop : Nat → Node → PState → Except String (Node × PState)
  | 0, _, _ => .error "out of fuel"
  | fuel + 1, left, st =>
      match peek st with
      | some t =>
          if t.type = .AND then
            match parseNotExpr fuel (advance st) with
            | .error e => .error e
            | .ok (right, st1) => parseAndLoop fuel (.AndNode left right) st1
          else if t.type ∈ implicitStarters then
            match parseNotExpr fuel st with
            | .error e => .error e
            | .ok (right, st1) => parseAndLoop fuel (.AndNode left right) st1
          else .ok (left, st)
      | none => .ok (left, st)

/-- `Parser._parse_not_expr`: right-associative prefix NOT. -/
def parseNotExpr : Nat → PState → Except String (Node × PState)
  | 0, _ => .error "out of fuel"
  | fuel + 1, st =>
      match peek st with
      | some t =>
          if t.type = .NOT then
            match parseNotExpr fuel (advance st) with
            | .error e => .error e
            | .ok (child, st1) => .ok (.NotNode child, st1)
          else parseAtom fuel st
      | none => parseAtom fuel st

/-- `Parser._parse_atom`: TEXT, REGEX or a parenthesized expression. -/
def parseAtom : Nat → PState → Except String (Node × PState)
  | 0, _ => .error "out of fuel"
  | fuel + 1, st =>
      match peek st with
      | none => .error "Unexpected end of query"
      | some t =>
          if t.type = .TEXT then .ok (.TextNode t.value, advance st)
          else if t.type = .REGEX then .ok (mkRegexNode t.value, advance st)
          else if t.type = .LPAREN then
            match parseOrExpr fuel (advance st) with
            | .error e => .error e
            | .ok (expr, st1) =>
                match peek st1 with
                | some t2 =>
                    if t2.type = .RPAREN then .ok (expr, advance st1)
                    else .error ("Missing closing parenthesis for opening parenthesis at position "
                      ++ toString t.position)
                | none => .error ("Missing closing parenthesis for opening parenthesis at position "
                      ++ toString t.position)
          else .error ("Unexpected token at position " ++ toString t.position ++ ": "
                  ++ String.mk t.value)

end

/-- `Parser.parse`: EOF checks, empty-query check, top-level expression,
trailing-garbage check. -/
def parseTokens (fuel : Nat) (tokens : List Token) : Except String Node :=
  match tokens.getLast? with
  | none => .error "Invalid token stream, missing EOF"
  | some last =>
      if last.type ≠ .EOF then .error "Invalid token stream, missing EOF"
      else if tokens.length = 1 then .error "Empty query"
      else
        match parseOrExpr fuel ⟨tokens, 0⟩ with
        | .error e => .error e
        | .ok (result, st) =>
            if st.current < tokens.length - 1 then
              match tokens.get? st.current with
              | some t => .error ("Unexpected token at position " ++ toString t.position ++ ": "
                      ++ String.mk t.value)
              | none => .error "Unexpected token"
            else .ok result

/-- `parse_query`: tokenize then parse, wrapping any `ValueError` into the
query-error kind by prefixing the message as `QueryError` does.  `none`
propagates lexer non-termination. -/
def parseQuery (fuel : Nat) (q : List Char) : Option (Except String Node) :=
  match tokenize fuel q with
  | none => none
  | some (.error e) => some (.error ("Error parsing query: " ++ e))
  | some (.ok ts) =>
      match parseTokens fuel ts with
      | .error e => some (.error ("Error parsing query: " ++ e))
      | .ok n => some (.ok n)

/-- The dynamic type of `apply_query`'s `text_data` argument: a string, a
list of strings, or a value of any other type (carrying only its type name,
which is all `apply_query` inspects on that path). -/
inductive TextData where
  | str (s : List Char)
  | list (l : List (List Char))
  | other (typeName : String)

/-- The two error kinds `apply_query` can raise: `QueryError` and
`TypeError`. -/
inductive ApplyError where
  | queryError (msg : String)
  | typeError (msg : String)
  deriving DecidableEq, Repr

/-- The two result shapes of `apply_query`. -/
inductive ApplyResult where
  | bool (b : Bool)
  | strs (l : List (List Char))
  deriving DecidableEq, Repr

/-- `apply_query`: evaluate a single string with the tree walk, filter a list
with the compiled predicate, and raise `TypeError` for any other argument
type.  Evaluation is modelled as non-throwing (the node model is total), so
the `except`-wrapping paths never fire. -/
def applyQuery (n : Node) (d : TextData) : Except ApplyError ApplyResult :=
  match d with
  | .str s => .ok (.bool (n.evaluate s))
  | .list l => .ok (.strs (l.filter n.compile))
  | .other ty => .error (.typeError ("text_data must be a str or list of str, got " ++ ty))

/-- Fuel sufficient for every concrete query in this development (each lexer
iteration and parser call consumes one unit; the longest query here is under
40 characters). -/
def FUEL : Nat := 64

/-- `apply_query(parse_query(q), t)` for a single text, as in the spec's
`apply(parse(q), t)` examples. -/
def parseAndApply (q t : String) : Option (Except ApplyError ApplyResult) :=
  match parseQuery FUEL q.data with
  | none => none
  | some (.error e) => some (.error (.queryError e))
  | some (.ok n) => some (applyQuery n (.str t.data))

/-! ## Theorems -/

/-- Tree-walk evaluation and the compiled closure agree on every node and
every text (shared helper). -/
theorem evaluate_eq_compile (n : Node) (t : List Char) : n.evaluate t = n.compile t := by
  induction n with
  | TextNode v => rfl
  | RegexNode p f => rfl
  | NotNode c ih => simp [Node.evaluate, Node.compile, ih]
  | AndNode l r ihl ihr => simp [Node.evaluate, Node.compile, ihl, ihr]
  | OrNode l r ihl ihr => simp [Node.evaluate, Node.compile, ihl, ihr]

/-- C1: for every query accepted by `parse_query` (any fuel) and every text,
the AST's direct tree-walk evaluation and its compiled-predicate form agree;
this holds for every AST node the parser can build. -/
theorem evaluate_compile_agree :
    ∀ (fuel : Nat) (q : List Char) (n : Node), parseQuery fuel q = some (.ok n) →
      ∀ t : List Char, n.evaluate t = n.compile t :=
  fun _ _ n _ t => evaluate_eq_compile n t

/-- Witness for `evaluate_compile_agree` at the query `a` and text `b`. -/
theorem evaluate_compile_agree_witness :
    Node.evaluate (.TextNode ['a']) ['b'] = Node.compile (.TextNode ['a']) ['b'] :=
  evaluate_compile_agree 64 ("a".data) (.TextNode ['a']) rfl ['b']

/-- C2 (code violation): the lexer compares the uppercased extracted text
against the keywords even when the text came from a quoted string, so the
query below lexes to the operator tokens AND, OR, OR and `parse_query` fails
with a query error; the claim (and the repository's own
`test_quoted_operator_keywords_as_text`) expects quoted keywords to become
TEXT tokens and the apply step to return true. -/
theorem quoted_keyword_lexes_as_operator :
    tokenize 64 ("\"AND\" OR \"OR\"".data) =
      some (.ok [⟨.AND, ['A', 'N', 'D'], 2⟩, ⟨.OR, ['O', 'R'], 6⟩,
        ⟨.OR, ['O', 'R'], 11⟩, ⟨.EOF, [], 13⟩])
    ∧ (∃ msg, parseQuery 64 ("\"AND\" OR \"OR\"".data) = some (.error msg)) :=
  ⟨rfl, ⟨_, rfl⟩⟩

/-- C3 (code violation): on the query `/unclosed` the lexer loop never
finishes — `_extract_regex` reverts the position, the `'/'` branch of the
`elif` chain fires again with unchanged state, and no amount of fuel produces
a result.  The claim (and the repository's own `test_unclosed_regex_raises`,
"should raise, not loop forever") says tokenization terminates on every
input. -/
theorem tokenize_diverges_on_unclosed_regex :
    ∀ (fuel : Nat) (acc : List Token), tokenizeLoop fuel ("/unclosed".data) 0 acc = none := by
  intro fuel
  induction fuel with
  | zero => intro _; rfl
  | succ n ih =>
      intro acc
      have h : lexStep ("/unclosed".data) 0 = some (.skip 0) := rfl
      simp only [tokenizeLoop, h]
      exact ih acc

/-- C4 (code violation): on a query holding an unterminated regex literal the
lexer emits no REGEX token but also never raises the claimed "unrecognized
character" lex error: it loops forever, so `parse_query` yields no result at
any fuel instead of failing with a query error. -/
theorem unterminated_regex_never_raises :
    (∀ (fuel : Nat) (acc : List Token), tokenizeLoop fuel ("/".data) 0 acc = none)
    ∧ (∀ fuel : Nat, parseQuery fuel ("/".data) = none) := by
  have key : ∀ (fuel : Nat) (acc : List Token), tokenizeLoop fuel ("/".data) 0 acc = none := by
    intro fuel
    induction fuel with
    | zero => intro _; rfl
    | succ n ih =>
        intro acc
        have h : lexStep ("/".data) 0 = some (.skip 0) := rfl
        simp only [tokenizeLoop, h]
        exact ih acc
  refine ⟨key, fun fuel => ?_⟩
  simp only [parseQuery, tokenize, key fuel []]

/-- C5: NOT binds tightest, then AND, then OR — verified on the claim's two
queries, both as parsed AST shapes and as end-to-end evaluations. -/
theorem operator_precedence_examples :
    parseQuery 64 ("python AND java OR javascript".data) =
      some (.ok (.OrNode (.AndNode (.TextNode ("python".data)) (.TextNode ("java".data)))
        (.TextNode ("javascript".data))))
    ∧ parseAndApply "python AND java OR javascript" "javascript programming" =
        some (.ok (.bool true))
    ∧ parseQuery 64 ("python AND NOT java".data) =
        some (.ok (.AndNode (.TextNode ("python".data)) (.NotNode (.TextNode ("java".data)))))
    ∧ parseAndApply "python AND NOT java" "python java programming" =
        some (.ok (.bool false)) :=
  ⟨rfl, rfl, rfl, rfl⟩

/-- C6: adjacency is conjunction.  Whenever the token under the cursor can
start a new operand (TEXT, REGEX, LPAREN, NOT), one step of the AND loop
parses it and folds an `AndNode` on the left without consuming an operator;
concretely, `python java` parses like `python AND java`, adjacency works for
all four starter kinds, and repeated AND / OR fold left-associatively. -/
theorem implicit_and_adjacency :
    (∀ (fuel : Nat) (left : Node) (st : PState) (t : Token) (right : Node) (st1 : PState),
        peek st = some t → t.type ∈ implicitStarters →
        parseNotExpr fuel st = .ok (right, st1) →
        parseAndLoop (fuel + 1) left st = parseAndLoop fuel (.AndNode left right) st1)
    ∧ parseQuery 64 ("python java".data) = parseQuery 64 ("python AND java".data)
    ∧ parseQuery 64 ("a AND b AND c".data) =
        some (.ok (.AndNode (.AndNode (.TextNode ['a']) (.TextNode ['b'])) (.TextNode ['c'])))
    ∧ parseQuery 64 ("a OR b OR c".data) =
        some (.ok (.OrNode (.OrNode (.TextNode ['a']) (.TextNode ['b'])) (.TextNode ['c'])))
    ∧ parseQuery 64 ("python /x/".data) =
        some (.ok (.AndNode (.TextNode ("python".data))
          (.RegexNode ['x'] ⟨false, false, false, false⟩)))
    ∧ parseQuery 64 ("a NOT b".data) =
        some (.ok (.AndNode (.TextNode ['a']) (.NotNode (.TextNode ['b']))))
    ∧ parseQuery 64 ("a (b OR c)".data) =
        some (.ok (.AndNode (.TextNode ['a'])
          (.OrNode (.TextNode ['b']) (.TextNode ['c'])))) := by
  refine ⟨?_, rfl, rfl, rfl, rfl, rfl, rfl⟩
  intro fuel left st t right st1 hpeek hmem hparse
  have hne : t.type ≠ .AND := by
    intro hand
    rw [hand] at hmem
    simp [implicitStarters] at hmem
  simp only [parseAndLoop, hpeek, if_neg hne, if_pos hmem, hparse]

/-- Witness for the adjacency conjunct of `implicit_and_adjacency`, at the
state whose cursor sits on a TEXT token. -/
theorem implicit_and_adjacency_witness :
    parseAndLoop 11 (.TextNode ['a']) ⟨[⟨.TEXT, ['b'], 2⟩, ⟨.EOF, [], 3⟩], 0⟩ =
      parseAndLoop 10 (.AndNode (.TextNode ['a']) (.TextNode ['b']))
        ⟨[⟨.TEXT, ['b'], 2⟩, ⟨.EOF, [], 3⟩], 1⟩ :=
  implicit_and_adjacency.1 10 (.TextNode ['a']) ⟨[⟨.TEXT, ['b'], 2⟩, ⟨.EOF, [], 3⟩], 0⟩
    ⟨.TEXT, ['b'], 2⟩ (.TextNode ['b']) ⟨[⟨.TEXT, ['b'], 2⟩, ⟨.EOF, [], 3⟩], 1⟩
    rfl (by decide) rfl

/-- C7: on a list argument `apply_query` returns exactly the filter of the
list through the compiled predicate — an order-preserving sublist holding
exactly the elements the query evaluates true on — and the empty list maps to
the empty list; the spec's concrete filtering example also holds. -/
theorem apply_query_list_filters :
    (∀ (n : Node) (l : List (List Char)),
        applyQuery n (.list l) = .ok (.strs (l.filter n.compile))
        ∧ (l.filter n.compile).Sublist l
        ∧ (∀ s, s ∈ l.filter n.compile ↔ s ∈ l ∧ n.evaluate s = true)
        ∧ applyQuery n (.list []) = .ok (.strs []))
    ∧ applyQuery (.TextNode ("match".data))
        (.list ["no".data, "match B".data, "no".data, "match A".data]) =
        .ok (.strs ["match B".data, "match A".data]) := by
  refine ⟨fun n l => ⟨rfl, List.filter_sublist l, fun s => ?_, rfl⟩, rfl⟩
  simp [List.mem_filter, evaluate_eq_compile]

/-- C9: `apply_query` returns a boolean for every string argument and a
filtered list for every list argument; it raises the usage-error kind
(`TypeError`) exactly when the argument is of any other type, and a usage
error is never the query-error kind. -/
theorem apply_query_error_kinds :
    (∀ (n : Node) (s : List Char), applyQuery n (.str s) = .ok (.bool (n.evaluate s)))
    ∧ (∀ (n : Node) (l : List (List Char)),
        applyQuery n (.list l) = .ok (.strs (l.filter n.compile)))
    ∧ (∀ (n : Node) (d : TextData),
        (∃ msg, applyQuery n d = .error (.typeError msg)) ↔ ∃ ty, d = .other ty)
    ∧ (∀ (n : Node) (d : TextData) (msg : String),
        applyQuery n d ≠ .error (.queryError msg))
    ∧ (∀ (m m' : String), ApplyError.typeError m ≠ ApplyError.queryError m') := by
  refine ⟨fun n s => rfl, fun n l => rfl, fun n d => ?_, fun n d msg => ?_, fun m m' => by simp⟩
  · cases d <;> simp [applyQuery]
  · cases d <;> simp [applyQuery]

/-- C8 counterexample: for the token literal `/i` (produced by the query
`//i`) the suffix after the last `/` is the non-empty all-valid `i`, so the
claimed split rule demands pattern `(empty)` with flag `i`; the code requires
the last slash to sit at a positive index and therefore keeps the whole
literal `/i` as the pattern with no flags.  The divergence is observable:
`apply(parse("//i"), "x")` is false, while the claimed split (an empty
case-insensitive pattern) matches every text. -/
theorem regex_split_index_zero_counterexample :
    (("/i".data.drop ((rfindSlash ("/i".data)).toNat + 1)) ≠ []
      ∧ (("/i".data.drop ((rfindSlash ("/i".data)).toNat + 1)).all validFlagChar) = true)
    ∧ splitRegexLiteral ("/i".data) = ("/i".data, [])
    ∧ specSplitRegexLiteral ("/i".data) = ([], ['i'])
    ∧ mkRegexNode ("/i".data) ≠ .RegexNode [] ⟨true, false, false, false⟩
    ∧ parseAndApply "//i" "x" = some (.ok (.bool false))
    ∧ Node.evaluate (.RegexNode [] ⟨true, false, false, false⟩) ("x".data) = true :=
  ⟨⟨by decide, by decide⟩, rfl, rfl, by decide, rfl, rfl⟩

/-- Characterization of the split performed by `RegexNode.__init__`: flags are
peeled only when the last slash sits at a positive index with a non-empty
all-valid suffix; in every other case the whole literal is the pattern
(shared helper for the amended C8). -/
theorem splitRegexLiteral_spec (lit pat fs : List Char)
    (h : splitRegexLiteral lit = (pat, fs)) :
    (fs ≠ [] →
      0 < rfindSlash lit
      ∧ pat = lit.take (rfindSlash lit).toNat
      ∧ fs = lit.drop ((rfindSlash lit).toNat + 1)
      ∧ (fs.all validFlagChar) = true)
    ∧ (fs = [] → pat = lit) := by
  simp only [splitRegexLiteral] at h
  split at h
  next h1 =>
    split at h
    next h2 =>
      cases h
      exact ⟨fun _ => ⟨h1, rfl, rfl, h2.2⟩, fun hfe => absurd hfe h2.1⟩
    next h2 =>
      cases h
      exact ⟨fun hfe => absurd rfl hfe, fun _ => rfl⟩
  next h1 =>
    cases h
    exact ⟨fun hfe => absurd rfl hfe, fun _ => rfl⟩

/-- C8 as amended: `RegexNode` construction splits the literal at its last
`/` and treats the suffix as flags only when that slash is at a **positive
index** and the suffix is non-empty with every character in {i, m, s, x};
otherwise the whole literal is the pattern with no flags.  The `i` flag makes
matching case-insensitive (`/python/i` matches `PYTHON`, `/python/` does
not), and evaluation is an unanchored substring search. -/
theorem regex_split_characterization :
    ∀ (lit pat fs : List Char), splitRegexLiteral lit = (pat, fs) →
      ((fs ≠ [] →
          0 < rfindSlash lit
          ∧ pat = lit.take (rfindSlash lit).toNat
          ∧ fs = lit.drop ((rfindSlash lit).toNat + 1)
          ∧ (fs.all validFlagChar) = true)
        ∧ (fs = [] → pat = lit))
      ∧ parseAndApply "/python/i" "PYTHON" = some (.ok (.bool true))
      ∧ parseAndApply "/python/" "PYTHON" = some (.ok (.bool false))
      ∧ parseAndApply "/python/" "say python now" = some (.ok (.bool true))
      ∧ (∀ (p t : List Char),
          Node.evaluate (.RegexNode p ⟨false, false, false, false⟩) t = isSubstring p t) :=
  fun lit pat fs h =>
    ⟨splitRegexLiteral_spec lit pat fs h, rfl, rfl, rfl, fun _ _ => rfl⟩

/-- Witness for `regex_split_characterization` at the literal `python/i`. -/
theorem regex_split_characterization_witness :
    parseAndApply "/python/i" "PYTHON" = some (.ok (.bool true)) :=
  (regex_split_characterization ("python/i".data) ("python".data) ['i'] rfl).2.1

/-- C10 counterexample: for the query `/ab/i` the emitted REGEX token stores
the literal `ab/i` (4 characters) but spans 5 source characters, so the
reconstructed offset `5 - 4 - 2 = -1` is negative — not the index of the
token's first character (the `/` at index 0). -/
theorem token_offset_counterexample :
    tokenize 64 ("/ab/i".data) =
      some (.ok [⟨.REGEX, ['a', 'b', '/', 'i'], -1⟩, ⟨.EOF, [], 5⟩])
    ∧ ((-1 : Int) < 0) :=
  ⟨rfl, by decide⟩

/-- C10 as amended: every token the lexer emits records as its offset the
position immediately after the token's final scanned character minus the
stored literal's length, minus a further 2 for REGEX tokens; this equals the
start index exactly when the stored literal's length (plus 2 for REGEX)
equals the scanned span, which fails for quoted strings and flagged
regexes. -/
theorem token_offset_convention :
    ∀ (q : List Char) (pos : Nat) (t : Token) (p : Nat),
      lexStep q pos = some (.emit t p) →
      t.position = (p : Int) - t.value.length - (if t.type = .REGEX then 2 else 0) := by
  intro q pos t p h
  unfold lexStep at h
  rcases hqd : q.drop pos with _ | ⟨c, rest⟩ <;> rw [hqd] at h
  · exact absurd h (by simp)
  · repeat' split at h
    all_goals
      first
        | (simp only [Option.some.injEq, LexResult.emit.injEq] at h
           obtain ⟨rfl, rfl⟩ := h
           simp
           try omega)
        | simp at h

/-- Witness for `token_offset_convention` at the one-character query `a`. -/
theorem token_offset_convention_witness :
    (⟨.TEXT, ['a'], 0⟩ : Token).position =
      ((1 : Nat) : Int) - (['a'] : List Char).length -
        (if TokenType.TEXT = TokenType.REGEX then 2 else 0) :=
  token_offset_convention ("a".data) 0 ⟨.TEXT, ['a'], 0⟩ 1 rfl

end BooleanQueryParser
